import Mathlib

/-!
Verification development for `snakeoil.data_source`.

The Python module is shallowly embedded: text values are lists of Unicode
code points (`List Nat`), byte strings are lists of byte values
(`List Nat`), a Python value held by a `data_source` is the sum of the two
(`PyVal`), and the in-memory stream handles produced by
`text_fileobj`/`bytes_fileobj` are explicit states (buffer plus position).
Raising an exception is modelled with `Except`/`Option` results.

The companion module `snakeoil.stringio` (thin read-only / writable
wrappers over the platform StringIO/BytesIO types) is not part of the
sources at hand, so stream primitives (`read`, `write`, `seek`, and the
read-only write rejection) are modelled from the specification of
standard stream semantics; those definitions say so in their doc comment.
-/

/-- Exception classes that the embedded code can raise. -/
inductive PyExcType where
  | typeError
  | memoryError
  | environmentError
  | unicodeDecodeError
  | unicodeEncodeError
  | notImplementedError
deriving DecidableEq, Repr

/-- The `mode` argument of `data_source._convert_data`: `'bytes'` or text. -/
inductive Mode where
  | text
  | bytes
deriving DecidableEq, Repr

/-- A Python value stored in a `data_source`: either a `str` (sequence of
Unicode code points) or a `bytes` (sequence of byte values). -/
inductive PyVal where
  | str (s : List Nat)
  | bytes (b : List Nat)
deriving DecidableEq, Repr

/-- Code points of a Lean string literal, used to write concrete
Python strings in theorems. -/
def strCodes (s : String) : List Nat :=
  s.data.map Char.toNat

/-- A Unicode scalar value: what a well-formed code point of a Python
`str` must be for the default (UTF-8) codec to accept it. -/
def IsValidScalar (c : Nat) : Prop :=
  c < 0xD800 ∨ (0xDFFF < c ∧ c < 0x110000)

instance (c : Nat) : Decidable (IsValidScalar c) := by
  unfold IsValidScalar; infer_instance

/-- UTF-8 encoding of a single Unicode scalar value (the codec behind
Python's default `str.encode()`). -/
def utf8EncodeChar (c : Nat) : List Nat :=
  if c < 0x80 then [c]
  else if c < 0x800 then [0xC0 + c / 64, 0x80 + c % 64]
  else if c < 0x10000 then [0xE0 + c / 4096, 0x80 + c / 64 % 64, 0x80 + c % 64]
  else [0xF0 + c / 262144, 0x80 + c / 4096 % 64, 0x80 + c / 64 % 64, 0x80 + c % 64]

/-- Python's default `str.encode()`: UTF-8 encode a sequence of code
points; fails (UnicodeEncodeError) if any code point is not a Unicode
scalar value (e.g. a lone surrogate). -/
def utf8Encode : List Nat → Option (List Nat)
  | [] => some []
  | c :: cs =>
    if IsValidScalar c then (utf8Encode cs).map (utf8EncodeChar c ++ ·)
    else none

/-- A UTF-8 continuation byte. -/
def IsCont (b : Nat) : Prop := 0x80 ≤ b ∧ b < 0xC0

instance (b : Nat) : Decidable (IsCont b) := by
  unfold IsCont; infer_instance

/-- Parse one UTF-8 encoded code point from the front of a byte
sequence, strictly: reject stray continuation bytes, overlong forms,
surrogates and values beyond U+10FFFF.  Returns the code point and the
remaining bytes. -/
def utf8DecodeOne : List Nat → Option (Nat × List Nat)
  | [] => none
  | b0 :: rest =>
    if b0 < 0x80 then some (b0, rest)
    else if b0 < 0xC2 then none
    else if b0 < 0xE0 then
      match rest with
      | b1 :: rest2 =>
        if IsCont b1 then some ((b0 - 0xC0) * 64 + (b1 - 0x80), rest2)
        else none
      | [] => none
    else if b0 < 0xF0 then
      match rest with
      | b1 :: b2 :: rest2 =>
        if IsCont b1 ∧ IsCont b2 then
          if 0x800 ≤ (b0 - 0xE0) * 4096 + (b1 - 0x80) * 64 + (b2 - 0x80) ∧
              IsValidScalar ((b0 - 0xE0) * 4096 + (b1 - 0x80) * 64 + (b2 - 0x80)) then
            some ((b0 - 0xE0) * 4096 + (b1 - 0x80) * 64 + (b2 - 0x80), rest2)
          else none
        else none
      | _ => none
    else if b0 < 0xF5 then
      match rest with
      | b1 :: b2 :: b3 :: rest2 =>
        if IsCont b1 ∧ IsCont b2 ∧ IsCont b3 then
          if 0x10000 ≤ (b0 - 0xF0) * 262144 + (b1 - 0x80) * 4096 + (b2 - 0x80) * 64 + (b3 - 0x80) ∧
              (b0 - 0xF0) * 262144 + (b1 - 0x80) * 4096 + (b2 - 0x80) * 64 + (b3 - 0x80) < 0x110000 then
            some ((b0 - 0xF0) * 262144 + (b1 - 0x80) * 4096 + (b2 - 0x80) * 64 + (b3 - 0x80), rest2)
          else none
        else none
      | _ => none
    else none

/-- Decoding loop behind `utf8Decode`, with fuel bounding the number of
decoded code points (one byte of input per code point at least, so the
input length is always enough fuel). -/
def utf8DecodeLoop : Nat → List Nat → Option (List Nat)
  | _, [] => some []
  | 0, _ :: _ => none
  | fuel + 1, b0 :: rest =>
    match utf8DecodeOne (b0 :: rest) with
    | some cr => (utf8DecodeLoop fuel cr.2).map (cr.1 :: ·)
    | none => none

/-- Python's default `bytes.decode()`: strict UTF-8 decoding of a byte
sequence into code points; fails (UnicodeDecodeError) on any ill-formed
sequence (stray continuation byte, overlong form, surrogate, or a value
beyond U+10FFFF). -/
def utf8Decode (l : List Nat) : Option (List Nat) :=
  utf8DecodeLoop l.length l

/-- Modelled from the spec: state of an in-memory stream
(`snakeoil.stringio` wraps the platform StringIO/BytesIO; that module is
not among the sources at hand).  A stream is a buffer of units (code
points for text streams, bytes for binary streams) plus a current
position. -/
structure StreamState where
  content : List Nat
  pos : Nat
deriving DecidableEq, Repr

/-- Modelled from the spec: `read()` with no size — return everything
from the current position and move the position to the end. -/
def StreamState.readAll (s : StreamState) : List Nat × StreamState :=
  (s.content.drop s.pos, { s with pos := s.content.length })

/-- Modelled from the spec: `read(n)` — return at most `n` units from the
current position, advancing the position by the amount actually read. -/
def StreamState.readN (s : StreamState) (n : Nat) : List Nat × StreamState :=
  ((s.content.drop s.pos).take n,
   { s with pos := s.pos + ((s.content.drop s.pos).take n).length })

/-- Modelled from the spec: `write(d)` — overwrite the buffer at the
current position (zero-padding any gap beyond the end of the buffer, as
the platform streams do), leaving the position after the written data. -/
def StreamState.write (s : StreamState) (d : List Nat) : StreamState :=
  { content :=
      (s.content ++ List.replicate (s.pos - s.content.length) 0).take s.pos ++ d ++
        (s.content ++ List.replicate (s.pos - s.content.length) 0).drop (s.pos + d.length),
    pos := s.pos + d.length }

/-- Modelled from the spec: `seek(n)` (absolute). -/
def StreamState.seek (s : StreamState) (n : Nat) : StreamState :=
  { s with pos := n }

/-- A read-only in-memory handle (`text_ro_StringIO` / `bytes_ro_StringIO`):
the wrapped stream plus the mode it serves. -/
structure RoHandle where
  mode : Mode
  stream : StreamState
deriving DecidableEq, Repr

/-- A writable in-memory handle produced by `_mk_writable_cls`
(`text_wr_StringIO` / `bytes_wr_StringIO`): the wrapped stream, its mode,
and whether `_callback` is still set (it becomes `None` after the
close-time commit). -/
structure WrHandle where
  mode : Mode
  stream : StreamState
  callbackActive : Bool
deriving DecidableEq, Repr

/-- The `exceptions` class attribute of the read-only handle classes:
`(MemoryError, TypeError)`. -/
def RoHandle.exceptions (_ : RoHandle) : List PyExcType :=
  [.memoryError, .typeError]

/-- The `exceptions` class attribute of `_mk_writable_cls` handles:
`(MemoryError,)`. -/
def WrHandle.exceptions (_ : WrHandle) : List PyExcType :=
  [.memoryError]

/-- Modelled from the spec: writing to a read-only StringIO raises
`TypeError` (the module doc of `data_source.py` shows exactly this) and
leaves the handle untouched. -/
def RoHandle.write (_ : RoHandle) (_ : List Nat) : Except PyExcType RoHandle :=
  .error .typeError

/-- `read()` on a read-only handle: drains the wrapped stream. -/
def RoHandle.read (h : RoHandle) : List Nat × RoHandle :=
  let r := h.stream.readAll
  (r.1, { h with stream := r.2 })

/-- `write(d)` on a writable handle: a plain StringIO write on the
wrapped buffer; the commit callback is not involved. -/
def WrHandle.write (h : WrHandle) (d : List Nat) : WrHandle :=
  { h with stream := h.stream.write d }

/-- The in-memory `data_source`: the raw `data` (str or bytes) and the
`mutable` flag, both set at construction. -/
structure DataSource where
  data : PyVal
  mutable : Bool
deriving DecidableEq, Repr

/-- `data_source._convert_data(mode)` (the py3k branch, the only live one
on Python 3): for `'bytes'` return the data, encoding it if it is a str;
otherwise return the data, decoding it if it is bytes.  Returns the raw
unit list of the requested representation, `none` when the codec
raises. -/
def _convert_data (src : DataSource) (mode : Mode) : Option (List Nat) :=
  match mode with
  | .bytes =>
    match src.data with
    | .bytes b => some b
    | .str s => utf8Encode s
  | .text =>
    match src.data with
    | .str s => some s
    | .bytes b => utf8Decode b

/-- `data_source._reset_data(data)` (py3k branch): convert the committed
content back to the representation of the currently stored data (bytes
stay bytes, str stays str, converting when the committed value's type
differs) and replace `self.data`.  `none` when the codec raises. -/
def _reset_data (src : DataSource) (d : PyVal) : Option DataSource :=
  match src.data with
  | .bytes _ =>
    match d with
    | .bytes b => some { src with data := .bytes b }
    | .str s => (utf8Encode s).map fun b => { src with data := .bytes b }
  | .str _ =>
    match d with
    | .str s => some { src with data := .str s }
    | .bytes b => (utf8Decode b).map fun s => { src with data := .str s }

/-- The payload a writable handle passes to its commit callback: text
handles pass a str, bytes handles pass a bytes. -/
def mkPayload (m : Mode) (d : List Nat) : PyVal :=
  match m with
  | .text => .str d
  | .bytes => .bytes d

/-- `close()` of a `_mk_writable_cls` handle, threading the owning source
(the `_callback` is the bound `_reset_data` of that source): flush; if
the callback is still set, seek to 0, read the full buffer, invoke the
callback with it and clear the callback; `none` when the commit's codec
conversion raises. -/
def WrHandle.close (h : WrHandle) (src : DataSource) :
    Option (WrHandle × DataSource) :=
  if h.callbackActive then
    let s1 := h.stream.seek 0
    let r := s1.readAll
    match _reset_data src (mkPayload h.mode r.1) with
    | some src2 => some ({ h with stream := r.2, callbackActive := false }, src2)
    | none => none
  else
    some (h, src)

/-- An in-memory file object as returned by the `data_source` fileobj
methods: read-only or writable. -/
inductive MemFileObj where
  | ro (h : RoHandle)
  | wr (h : WrHandle)
deriving DecidableEq, Repr

/-- The `exceptions` attribute, determined by the handle's class alone. -/
def MemFileObj.exceptions : MemFileObj → List PyExcType
  | .ro h => h.exceptions
  | .wr h => h.exceptions

/-- `data_source.text_fileobj(writable)`: for a writable request, first
the mutability check (TypeError), then a `text_wr_StringIO` pre-loaded
with `_convert_data('text')` and the `_reset_data` callback; otherwise a
`text_ro_StringIO` over `_convert_data('text')`. -/
def ds_text_fileobj (src : DataSource) (writable : Bool) :
    Except PyExcType MemFileObj :=
  if writable then
    if !src.mutable then .error .typeError
    else
      match _convert_data src .text with
      | some d => .ok (.wr ⟨.text, ⟨d, 0⟩, true⟩)
      | none => .error .unicodeDecodeError
  else
    match _convert_data src .text with
    | some d => .ok (.ro ⟨.text, ⟨d, 0⟩⟩)
    | none => .error .unicodeDecodeError

/-- `data_source.bytes_fileobj(writable)`: as `text_fileobj`, with
`_convert_data('bytes')` and the bytes handle classes. -/
def ds_bytes_fileobj (src : DataSource) (writable : Bool) :
    Except PyExcType MemFileObj :=
  if writable then
    if !src.mutable then .error .typeError
    else
      match _convert_data src .bytes with
      | some d => .ok (.wr ⟨.bytes, ⟨d, 0⟩, true⟩)
      | none => .error .unicodeEncodeError
  else
    match _convert_data src .bytes with
    | some d => .ok (.ro ⟨.bytes, ⟨d, 0⟩⟩)
    | none => .error .unicodeEncodeError

/-- `data_source.text_fileobj` viewed as a state transformer on the
source object: the method body never assigns to `self`, so the post-call
source is the argument itself. -/
def ds_text_fileobj_st (src : DataSource) (writable : Bool) :
    Except PyExcType MemFileObj × DataSource :=
  (ds_text_fileobj src writable, src)

/-- `data_source.bytes_fileobj` viewed as a state transformer on the
source object: the method body never assigns to `self`. -/
def ds_bytes_fileobj_st (src : DataSource) (writable : Bool) :
    Except PyExcType MemFileObj × DataSource :=
  (ds_bytes_fileobj src writable, src)

/-- `read()` on a read-only handle, threading the owning source: the
read touches only the handle's stream. -/
def ro_read_st (h : RoHandle) (src : DataSource) :
    (List Nat × RoHandle) × DataSource :=
  (h.read, src)

/-- `write(d)` on a writable handle, threading the owning source: a
StringIO write updates only the handle's buffer; the commit callback is
not invoked. -/
def wr_write_st (h : WrHandle) (src : DataSource) (d : List Nat) :
    WrHandle × DataSource :=
  (h.write d, src)

/-- `text_data_source.__init__`: reject non-str data with TypeError,
otherwise store the data unchanged via `data_source.__init__`. -/
def text_data_source_init (d : PyVal) (m : Bool) : Except PyExcType DataSource :=
  match d with
  | .str _ => .ok ⟨d, m⟩
  | .bytes _ => .error .typeError

/-- `bytes_data_source.__init__`: reject non-bytes data with TypeError,
otherwise store the data unchanged via `data_source.__init__`. -/
def bytes_data_source_init (d : PyVal) (m : Bool) : Except PyExcType DataSource :=
  match d with
  | .bytes _ => .ok ⟨d, m⟩
  | .str _ => .error .typeError

/-- The file system as the disk-backed source sees it: a map from paths
to the raw byte content of existing files. -/
def FS : Type := String → Option (List Nat)

/-- The open modes `local_source` uses: `"r"`, `"r+"`, `"rb"`, `"rb+"`
(plus the truncating modes for contrast with what the code does not
use). -/
inductive OpenMode where
  | r
  | rPlus
  | rb
  | rbPlus
  | w
  | wb
deriving DecidableEq, Repr

/-- A handle returned by `open_file`: the underlying stream over the
file's content, the optional text encoding the handle was opened with,
and the `exceptions` attribute the wrapper sets. -/
structure DiskHandle where
  stream : StreamState
  encoding : Option String
  exceptions : List PyExcType
deriving DecidableEq, Repr

/-- `open_file` (py3k branch): `io.open` plus
`handle.exceptions = (EnvironmentError,)`.  The read modes (`"r"`,
`"r+"`, `"rb"`, `"rb+"`) require the file to exist — a missing path is
an EnvironmentError — and never alter it; the truncating modes (`"w"`,
`"wb"`) create or empty the file.  Returns the handle (or error) and the
file system after the call. -/
def open_file (fs : FS) (path : String) (m : OpenMode) (enc : Option String) :
    Except PyExcType DiskHandle × FS :=
  match m with
  | .r | .rPlus | .rb | .rbPlus =>
    match fs path with
    | none => (.error .environmentError, fs)
    | some c => (.ok ⟨⟨c, 0⟩, enc, [.environmentError]⟩, fs)
  | .w | .wb =>
    (.ok ⟨⟨[], 0⟩, enc, [.environmentError]⟩,
      fun p => if p = path then some [] else fs p)

/-- The disk-backed `local_source`: path, `mutable` flag and optional
forced encoding, all set at construction. -/
structure LocalSource where
  path : String
  mutable : Bool
  encoding : Option String
deriving DecidableEq, Repr

/-- `local_source.text_fileobj(writable)`: the mutability check first
(TypeError), then the opener — `open_file` with the forced encoding if
one was given — applied to mode `"r+"` when writable, else `"r"`. -/
def local_text_fileobj (ls : LocalSource) (fs : FS) (writable : Bool) :
    Except PyExcType DiskHandle × FS :=
  if writable && !ls.mutable then (.error .typeError, fs)
  else if writable then open_file fs ls.path .rPlus ls.encoding
  else open_file fs ls.path .r ls.encoding

/-- `local_source.bytes_fileobj(writable)`: for a writable request the
mutability check (TypeError) then `open_file(path, "rb+")`; otherwise
`open_file(path, "rb")`. -/
def local_bytes_fileobj (ls : LocalSource) (fs : FS) (writable : Bool) :
    Except PyExcType DiskHandle × FS :=
  if writable then
    if !ls.mutable then (.error .typeError, fs)
    else open_file fs ls.path .rbPlus none
  else open_file fs ls.path .rb none

/-- `transfer_data(read_fsobj, write_fsobj, bufsize=4096*16)`: read a
chunk of at most `bufsize`; while the chunk is non-empty, write it and
read the next one.  Returns the final reader and writer states. -/
def transfer_data (read_fsobj write_fsobj : StreamState)
    (bufsize : Nat := 4096 * 16) : StreamState × StreamState :=
  if h : (read_fsobj.readN bufsize).1 = [] then
    ((read_fsobj.readN bufsize).2, write_fsobj)
  else
    transfer_data (read_fsobj.readN bufsize).2
      (write_fsobj.write (read_fsobj.readN bufsize).1) bufsize
termination_by read_fsobj.content.length - read_fsobj.pos
decreasing_by
  simp only [StreamState.readN] at h ⊢
  have h1 : read_fsobj.pos < read_fsobj.content.length := by
    by_contra hc
    exact h (by simp [List.drop_eq_nil_of_le (Nat.le_of_not_lt hc)])
  have h2 : 0 < ((read_fsobj.content.drop read_fsobj.pos).take bufsize).length :=
    List.length_pos.mpr h
  omega


theorem isValidScalar_lt {c : Nat} (h : IsValidScalar c) : c < 0x110000 := by
  rcases h with h1 | h1
  · omega
  · exact h1.2

theorem utf8DecodeOne_encodeChar (c : Nat) (h : IsValidScalar c) (bs : List Nat) :
    utf8DecodeOne (utf8EncodeChar c ++ bs) = some (c, bs) := by
  have hmax : c < 0x110000 := isValidScalar_lt h
  by_cases h1 : c < 0x80
  · simp only [utf8EncodeChar, if_pos h1, List.cons_append, List.nil_append,
      utf8DecodeOne]
  · by_cases h2 : c < 0x800
    · have d1 : ¬ (0xC0 + c / 64 < 0x80) := by omega
      have d2 : ¬ (0xC0 + c / 64 < 0xC2) := by omega
      have d3 : 0xC0 + c / 64 < 0xE0 := by omega
      have dcont : IsCont (0x80 + c % 64) := ⟨by omega, by omega⟩
      have ec : (0xC0 + c / 64 - 0xC0) * 64 + (0x80 + c % 64 - 0x80) = c := by omega
      simp only [utf8EncodeChar, if_neg h1, if_pos h2, List.cons_append,
        List.nil_append, utf8DecodeOne, if_neg d1, if_neg d2, if_pos d3,
        if_pos dcont, ec]
    · by_cases h3 : c < 0x10000
      · have d1 : ¬ (0xE0 + c / 4096 < 0x80) := by omega
        have d2 : ¬ (0xE0 + c / 4096 < 0xC2) := by omega
        have d3 : ¬ (0xE0 + c / 4096 < 0xE0) := by omega
        have d4 : 0xE0 + c / 4096 < 0xF0 := by omega
        have dc1 : IsCont (0x80 + c / 64 % 64) := ⟨by omega, by omega⟩
        have dc2 : IsCont (0x80 + c % 64) := ⟨by omega, by omega⟩
        have ec : (0xE0 + c / 4096 - 0xE0) * 4096 + (0x80 + c / 64 % 64 - 0x80) * 64 +
            (0x80 + c % 64 - 0x80) = c := by omega
        have dok : 0x800 ≤ c ∧ IsValidScalar c := ⟨by omega, h⟩
        simp only [utf8EncodeChar, if_neg h1, if_neg h2, if_pos h3,
          List.cons_append, List.nil_append, utf8DecodeOne, if_neg d1, if_neg d2,
          if_neg d3, if_pos d4, ec, if_pos dok]
        rw [if_pos ⟨dc1, dc2⟩]
      · have d1 : ¬ (0xF0 + c / 262144 < 0x80) := by omega
        have d2 : ¬ (0xF0 + c / 262144 < 0xC2) := by omega
        have d3 : ¬ (0xF0 + c / 262144 < 0xE0) := by omega
        have d4 : ¬ (0xF0 + c / 262144 < 0xF0) := by omega
        have d5 : 0xF0 + c / 262144 < 0xF5 := by omega
        have dc1 : IsCont (0x80 + c / 4096 % 64) := ⟨by omega, by omega⟩
        have dc2 : IsCont (0x80 + c / 64 % 64) := ⟨by omega, by omega⟩
        have dc3 : IsCont (0x80 + c % 64) := ⟨by omega, by omega⟩
        have ec : (0xF0 + c / 262144 - 0xF0) * 262144 + (0x80 + c / 4096 % 64 - 0x80) * 4096 +
            (0x80 + c / 64 % 64 - 0x80) * 64 + (0x80 + c % 64 - 0x80) = c := by omega
        have dok : 0x10000 ≤ c ∧ c < 0x110000 := ⟨by omega, hmax⟩
        simp only [utf8EncodeChar, if_neg h1, if_neg h2, if_neg h3,
          List.cons_append, List.nil_append, utf8DecodeOne, if_neg d1, if_neg d2,
          if_neg d3, if_neg d4, if_pos d5, ec, if_pos dok]
        rw [if_pos ⟨dc1, dc2, dc3⟩]

theorem utf8EncodeChar_length_pos (c : Nat) : 0 < (utf8EncodeChar c).length := by
  unfold utf8EncodeChar
  split_ifs <;> simp

theorem utf8DecodeLoop_encode {cs l : List Nat} (fuel : Nat)
    (h : utf8Encode cs = some l) (hfuel : l.length ≤ fuel) :
    utf8DecodeLoop fuel l = some cs := by
  induction cs generalizing l fuel with
  | nil =>
    rw [utf8Encode] at h
    cases h
    cases fuel <;> rfl
  | cons c cs ih =>
    rw [utf8Encode] at h
    by_cases hv : IsValidScalar c
    · rw [if_pos hv] at h
      cases hcs : utf8Encode cs with
      | none => rw [hcs] at h; cases h
      | some bs2 =>
        rw [hcs] at h
        cases h
        have hchar := utf8EncodeChar_length_pos c
        rw [List.length_append] at hfuel
        obtain ⟨f, rfl⟩ : ∃ f, fuel = f + 1 := ⟨fuel - 1, by omega⟩
        obtain ⟨e0, etail, hsh⟩ :=
          List.exists_cons_of_ne_nil (l := utf8EncodeChar c ++ bs2)
            (List.length_pos.mp (by rw [List.length_append]; omega))
        show utf8DecodeLoop (f + 1) (utf8EncodeChar c ++ bs2) = some (c :: cs)
        rw [hsh, utf8DecodeLoop, ← hsh, utf8DecodeOne_encodeChar c hv bs2]
        show (utf8DecodeLoop f bs2).map (c :: ·) = some (c :: cs)
        rw [ih f hcs (by omega)]
        rfl
    · rw [if_neg hv] at h
      cases h

theorem utf8Decode_utf8Encode {cs bs : List Nat} (h : utf8Encode cs = some bs) :
    utf8Decode bs = some cs :=
  utf8DecodeLoop_encode bs.length h (Nat.le_refl _)

theorem StreamState.write_pos_le (s : StreamState) (d : List Nat) :
    (s.write d).pos ≤ (s.write d).content.length := by
  simp only [StreamState.write, List.length_append, List.length_take,
    List.length_drop, List.length_replicate]
  omega

theorem StreamState.write_nil (s : StreamState) (h : s.pos ≤ s.content.length) :
    s.write [] = s := by
  obtain ⟨c, p⟩ := s
  simp only [StreamState.write, StreamState.mk.injEq]
  simp only at h
  have h0 : p - c.length = 0 := by omega
  rw [h0, List.replicate_zero, List.append_nil]
  constructor
  · rw [List.append_nil, List.length_nil, Nat.add_zero]
    exact List.take_append_drop p c
  · rw [List.length_nil, Nat.add_zero]

theorem StreamState.write_write (s : StreamState) (a b : List Nat) :
    (s.write a).write b = s.write (a ++ b) := by
  have hP : s.pos ≤ (s.content ++ List.replicate (s.pos - s.content.length) 0).length := by
    rw [List.length_append, List.length_replicate]; omega
  have hX : ((s.content ++ List.replicate (s.pos - s.content.length) 0).take s.pos).length
      = s.pos := by
    rw [List.length_take]; omega
  simp only [StreamState.write, StreamState.mk.injEq]
  have hC1 : (((s.content ++ List.replicate (s.pos - s.content.length) 0).take s.pos ++ a ++
      (s.content ++ List.replicate (s.pos - s.content.length) 0).drop (s.pos + a.length)).length)
      = s.pos + a.length +
        ((s.content ++ List.replicate (s.pos - s.content.length) 0).length - (s.pos + a.length)) := by
    rw [List.length_append, List.length_append, hX, List.length_drop]
  have h0 : s.pos + a.length -
      ((s.content ++ List.replicate (s.pos - s.content.length) 0).take s.pos ++ a ++
        (s.content ++ List.replicate (s.pos - s.content.length) 0).drop (s.pos + a.length)).length
      = 0 := by
    rw [hC1]; omega
  rw [h0, List.replicate_zero, List.append_nil]
  have htake : (((s.content ++ List.replicate (s.pos - s.content.length) 0).take s.pos ++ a ++
      (s.content ++ List.replicate (s.pos - s.content.length) 0).drop (s.pos + a.length)).take
        (s.pos + a.length))
      = (s.content ++ List.replicate (s.pos - s.content.length) 0).take s.pos ++ a :=
    List.take_left' (by rw [List.length_append, hX])
  have hdropleft : ∀ (l₁ l₂ : List Nat) (n k : Nat), l₁.length = n →
      (l₁ ++ l₂).drop (n + k) = l₂.drop k := by
    intro l₁ l₂ n k hl
    subst hl
    rw [← List.drop_drop, List.drop_left]
  have hdrop : (((s.content ++ List.replicate (s.pos - s.content.length) 0).take s.pos ++ a ++
      (s.content ++ List.replicate (s.pos - s.content.length) 0).drop (s.pos + a.length)).drop
        (s.pos + a.length + b.length))
      = (s.content ++ List.replicate (s.pos - s.content.length) 0).drop
          (s.pos + a.length + b.length) := by
    rw [hdropleft _ _ (s.pos + a.length) b.length (by rw [List.length_append, hX]),
      List.drop_drop]
  rw [htake, hdrop]
  constructor
  · rw [List.length_append, ← Nat.add_assoc]
    simp [List.append_assoc]
  · rw [List.length_append, ← Nat.add_assoc]

theorem take_append_drop_take_length (n : Nat) (X : List Nat) :
    X.take n ++ X.drop (X.take n).length = X := by
  rw [List.length_take]
  rcases Nat.le_total n X.length with h | h
  · rw [Nat.min_eq_left h]
    exact List.take_append_drop n X
  · rw [Nat.min_eq_right h, List.take_of_length_le h, List.drop_length, List.append_nil]

theorem transfer_data_spec (k : Nat) :
    ∀ (r w : StreamState) (n : Nat),
      r.content.length - r.pos ≤ k → 0 < n → r.pos ≤ r.content.length →
      w.pos ≤ w.content.length →
      transfer_data r w n =
        (⟨r.content, r.content.length⟩, w.write (r.content.drop r.pos)) := by
  induction k with
  | zero =>
    intro r w n hk hn hr hw
    have hdrop : r.content.drop r.pos = [] := List.drop_eq_nil_of_le (by omega)
    have hread : (r.readN n).1 = [] := by
      simp [StreamState.readN, hdrop]
    rw [transfer_data, dif_pos hread]
    have hpos : r.pos = r.content.length := by omega
    simp only [StreamState.readN, hdrop, List.take_nil, List.length_nil, Nat.add_zero]
    rw [StreamState.write_nil w hw, hpos]
  | succ k ih =>
    intro r w n hk hn hr hw
    by_cases hread : (r.readN n).1 = []
    · rw [transfer_data, dif_pos hread]
      have hdrop : r.content.drop r.pos = [] := by
        have : ((r.content.drop r.pos).take n) = [] := hread
        rcases List.take_eq_nil_iff.mp this with h1 | h1
        · exact absurd h1 (by omega)
        · exact h1
      have hpos : r.pos = r.content.length := by
        have := List.length_drop r.pos r.content
        rw [hdrop] at this
        simp at this
        omega
      simp only [StreamState.readN, hdrop, List.take_nil, List.length_nil, Nat.add_zero]
      rw [StreamState.write_nil w hw, hpos]
    · rw [transfer_data, dif_neg hread]
      have hdlen : ((r.content.drop r.pos).take n).length ≤ r.content.length - r.pos := by
        rw [List.length_take, List.length_drop]; omega
      have hdpos : 0 < ((r.content.drop r.pos).take n).length := by
        rw [List.length_pos]
        exact hread
      have hrec := ih ⟨r.content, r.pos + ((r.content.drop r.pos).take n).length⟩
        (w.write ((r.content.drop r.pos).take n)) n
        (by simp only [List.length_drop]; omega)
        hn
        (by simp only []; omega)
        (StreamState.write_pos_le w _)
      simp only [StreamState.readN]
      rw [hrec]
      simp only [StreamState.write_write]
      congr 2
      have hdd : r.content.drop (r.pos + ((r.content.drop r.pos).take n).length)
          = (r.content.drop r.pos).drop ((r.content.drop r.pos).take n).length := by
        rw [List.drop_drop]
      rw [hdd]
      exact take_append_drop_take_length n (r.content.drop r.pos)

/-- The rejection behaviour claimed for immutable sources: both fileobj
methods of the in-memory source refuse a writable request with TypeError
and leave the source untouched, and both fileobj methods of the
disk-backed source refuse it with TypeError and leave the file system
untouched (so no storage access happens, whatever the file system
holds). -/
def ImmutableRejectSpec (src : DataSource) (ls : LocalSource) (fs : FS) : Prop :=
  ds_text_fileobj_st src true = (.error .typeError, src) ∧
  ds_bytes_fileobj_st src true = (.error .typeError, src) ∧
  local_text_fileobj ls fs true = (.error .typeError, fs) ∧
  local_bytes_fileobj ls fs true = (.error .typeError, fs)

/-- C1: for every source (disk-backed or in-memory) constructed with
`mutable=False`, every `text_fileobj(writable=True)` and
`bytes_fileobj(writable=True)` call raises TypeError before any storage
access, and the source's content is unchanged by the failed call. -/
theorem immutable_sources_reject_writable_handles
    (src : DataSource) (ls : LocalSource) (fs : FS)
    (hsrc : src.mutable = false) (hls : ls.mutable = false) :
    ImmutableRejectSpec src ls fs := by
  refine ⟨?_, ?_, ?_, ?_⟩ <;>
    simp [ImmutableRejectSpec, ds_text_fileobj_st, ds_bytes_fileobj_st,
      ds_text_fileobj, ds_bytes_fileobj, local_text_fileobj,
      local_bytes_fileobj, hsrc, hls]

/-- Witness for C1 at a concrete immutable in-memory source, a concrete
immutable disk source and the empty file system. -/
theorem immutable_sources_reject_writable_handles_witness :
    (DataSource.mk (.str (strCodes "foonani")) false).mutable = false ∧
    (LocalSource.mk "localsource.test" false none).mutable = false ∧
    ImmutableRejectSpec ⟨.str (strCodes "foonani"), false⟩
      ⟨"localsource.test", false, none⟩ (fun _ => none) :=
  ⟨rfl, rfl,
    immutable_sources_reject_writable_handles _ _ _ rfl rfl⟩

/-- C2: in-memory source `"foonani"`, mutable; the writable text handle
comes pre-loaded with the full original content at position 0, writing
`"dar"` overwrites in place, and closing commits `"darnani"` — the
original suffix `"nani"` is preserved, so a fresh read-only handle reads
exactly `"darnani"`. -/
theorem inmemory_write_overwrites_from_position_zero :
    ds_text_fileobj ⟨.str (strCodes "foonani"), true⟩ true
      = .ok (.wr ⟨.text, ⟨strCodes "foonani", 0⟩, true⟩) ∧
    WrHandle.close
        ((WrHandle.mk .text ⟨strCodes "foonani", 0⟩ true).write (strCodes "dar"))
        ⟨.str (strCodes "foonani"), true⟩
      = some (⟨.text, ⟨strCodes "darnani", 7⟩, false⟩,
          ⟨.str (strCodes "darnani"), true⟩) ∧
    ds_text_fileobj ⟨.str (strCodes "darnani"), true⟩ false
      = .ok (.ro ⟨.text, ⟨strCodes "darnani", 0⟩⟩) ∧
    (RoHandle.mk .text ⟨strCodes "darnani", 0⟩).read.1 = strCodes "darnani" :=
  ⟨rfl, rfl, rfl, rfl⟩

/-- C7: the stored content of an in-memory source changes only through
the close of a writable handle — obtaining a handle (writable or not,
with any on-the-fly conversion), reading a read-only handle, and writing
through a writable handle that is never closed all leave the source
exactly as it was. -/
theorem source_content_unchanged_except_close
    (src : DataSource) (writable : Bool) (rh : RoHandle) (wh : WrHandle)
    (d : List Nat) :
    (ds_text_fileobj_st src writable).2 = src ∧
    (ds_bytes_fileobj_st src writable).2 = src ∧
    (ro_read_st rh src).2 = src ∧
    (wr_write_st wh src d).2 = src :=
  ⟨rfl, rfl, rfl, rfl⟩

/-- C8: `text_data_source` rejects non-text content and
`bytes_data_source` rejects non-bytes content with TypeError at
construction; with content of the matching type the construction
succeeds and stores the content unchanged. -/
theorem specialized_constructors_enforce_type
    (s b : List Nat) (m : Bool) :
    text_data_source_init (.bytes b) m = .error .typeError ∧
    text_data_source_init (.str s) m = .ok ⟨.str s, m⟩ ∧
    bytes_data_source_init (.str s) m = .error .typeError ∧
    bytes_data_source_init (.bytes b) m = .ok ⟨.bytes b, m⟩ :=
  ⟨rfl, rfl, rfl, rfl⟩

/-- C3: closing a writable handle whose callback is still set flushes,
seeks to 0, reads back the entire buffered content and hands it to the
owning source's `_reset_data`, which converts it to the stored
representation (text stays text, bytes stay bytes, converting when the
types differ) and replaces the stored content; the callback is then
cleared, so a second close commits nothing and changes nothing. -/
theorem writable_close_commits_full_content_once
    (h h2 : WrHandle) (src src2 : DataSource) (s s2 b b2 : List Nat) (m : Bool)
    (hact : h.callbackActive = true) (hinact : h2.callbackActive = false) :
    WrHandle.close h src =
      (_reset_data src (mkPayload h.mode h.stream.content)).map
        (fun srcN => (⟨h.mode, ⟨h.stream.content, h.stream.content.length⟩, false⟩,
          srcN)) ∧
    WrHandle.close h2 src2 = some (h2, src2) ∧
    _reset_data ⟨.str s, m⟩ (.str s2) = some ⟨.str s2, m⟩ ∧
    _reset_data ⟨.bytes b, m⟩ (.bytes b2) = some ⟨.bytes b2, m⟩ ∧
    _reset_data ⟨.bytes b, m⟩ (.str s2) =
      (utf8Encode s2).map (fun bb => ⟨.bytes bb, m⟩) ∧
    _reset_data ⟨.str s, m⟩ (.bytes b2) =
      (utf8Decode b2).map (fun ss => ⟨.str ss, m⟩) := by
  refine ⟨?_, ?_, rfl, rfl, rfl, rfl⟩
  · rw [WrHandle.close, if_pos hact]
    simp only [StreamState.seek, StreamState.readAll, List.drop_zero]
    cases hres : _reset_data src (mkPayload h.mode h.stream.content) <;> rfl
  · rw [WrHandle.close, if_neg (by simp [hinact])]

/-- Witness for C3 at a concrete open handle (content `"ab"`, position
1, callback set), a concrete already-committed handle, and concrete
conversion payloads. -/
theorem writable_close_commits_full_content_once_witness :
    (WrHandle.mk .text ⟨strCodes "ab", 1⟩ true).callbackActive = true ∧
    (WrHandle.mk .text ⟨strCodes "ab", 2⟩ false).callbackActive = false ∧
    (WrHandle.close (WrHandle.mk .text ⟨strCodes "ab", 1⟩ true)
        ⟨.str (strCodes "xy"), true⟩ =
      (_reset_data ⟨.str (strCodes "xy"), true⟩
          (mkPayload .text (strCodes "ab"))).map
        (fun srcN => (⟨.text, ⟨strCodes "ab", (strCodes "ab").length⟩, false⟩,
          srcN)) ∧
    WrHandle.close (WrHandle.mk .text ⟨strCodes "ab", 2⟩ false)
        ⟨.str (strCodes "xy"), true⟩ =
      some (⟨.text, ⟨strCodes "ab", 2⟩, false⟩, ⟨.str (strCodes "xy"), true⟩) ∧
    _reset_data ⟨.str [7], true⟩ (.str [8]) = some ⟨.str [8], true⟩ ∧
    _reset_data ⟨.bytes [7], true⟩ (.bytes [8]) = some ⟨.bytes [8], true⟩ ∧
    _reset_data ⟨.bytes [7], true⟩ (.str [8]) =
      (utf8Encode [8]).map (fun bb => ⟨.bytes bb, true⟩) ∧
    _reset_data ⟨.str [7], true⟩ (.bytes [8]) =
      (utf8Decode [8]).map (fun ss => ⟨.str ss, true⟩)) :=
  ⟨rfl, rfl,
    writable_close_commits_full_content_once _ _ _ _ [7] [8] [7] [8] true rfl rfl⟩

/-- C5: a memory source holding text `T` serves `T` unchanged through a
text handle and the UTF-8 encoding of `T` through a bytes handle, and the
conversion is lossless: decoding the encoded bytes gives back `T`. -/
theorem text_source_bytes_and_text_views
    (T bT : List Nat) (m : Bool) (henc : utf8Encode T = some bT) :
    ds_bytes_fileobj ⟨.str T, m⟩ false = .ok (.ro ⟨.bytes, ⟨bT, 0⟩⟩) ∧
    (RoHandle.mk .bytes ⟨bT, 0⟩).read.1 = bT ∧
    ds_text_fileobj ⟨.str T, m⟩ false = .ok (.ro ⟨.text, ⟨T, 0⟩⟩) ∧
    (RoHandle.mk .text ⟨T, 0⟩).read.1 = T ∧
    utf8Decode bT = some T := by
  refine ⟨?_, ?_, ?_, ?_, utf8Decode_utf8Encode henc⟩
  · simp [ds_bytes_fileobj, _convert_data, henc]
  · simp [RoHandle.read, StreamState.readAll]
  · simp [ds_text_fileobj, _convert_data]
  · simp [RoHandle.read, StreamState.readAll]

/-- Witness for C5 at the text `[102, 233]` (`"fé"`), whose UTF-8
encoding is `[102, 195, 169]`. -/
theorem text_source_bytes_and_text_views_witness :
    utf8Encode [102, 233] = some [102, 195, 169] ∧
    (ds_bytes_fileobj ⟨.str [102, 233], true⟩ false
        = .ok (.ro ⟨.bytes, ⟨[102, 195, 169], 0⟩⟩) ∧
    (RoHandle.mk .bytes ⟨[102, 195, 169], 0⟩).read.1 = [102, 195, 169] ∧
    ds_text_fileobj ⟨.str [102, 233], true⟩ false
        = .ok (.ro ⟨.text, ⟨[102, 233], 0⟩⟩) ∧
    (RoHandle.mk .text ⟨[102, 233], 0⟩).read.1 = [102, 233] ∧
    utf8Decode [102, 195, 169] = some [102, 233]) :=
  ⟨by decide, text_source_bytes_and_text_views [102, 233] [102, 195, 169] true (by decide)⟩

/-- C6: `transfer_data` with a positive chunk size (default
`4096 * 16 = 65536`) and in-bounds stream positions drains the reader
(a further read returns nothing) and performs, in order, exactly one
write of all the data that remained in the reader from its position at
call time — no transformation, reordering, loss or duplication. -/
theorem transfer_data_copies_remaining
    (r w : StreamState) (n : Nat)
    (hn : 0 < n) (hr : r.pos ≤ r.content.length) (hw : w.pos ≤ w.content.length) :
    transfer_data r w = transfer_data r w 65536 ∧
    transfer_data r w n =
      (⟨r.content, r.content.length⟩, w.write (r.content.drop r.pos)) ∧
    ((transfer_data r w n).1.readN n).1 = [] ∧
    (transfer_data r w n).2.content =
      (w.content ++ List.replicate (w.pos - w.content.length) 0).take w.pos ++
        r.content.drop r.pos ++
        (w.content ++ List.replicate (w.pos - w.content.length) 0).drop
          (w.pos + (r.content.drop r.pos).length) ∧
    (transfer_data r w n).2.pos = w.pos + (r.content.drop r.pos).length := by
  have hmain := transfer_data_spec r.content.length r w n (by omega) hn hr hw
  refine ⟨rfl, hmain, ?_, ?_, ?_⟩
  · rw [hmain]
    simp [StreamState.readN]
  · rw [hmain]
    rfl
  · rw [hmain]
    rfl

/-- Witness for C6 at a reader `[1,2,3]` positioned at 1, a writer `[9]`
positioned at 0 and chunk size 2: the remaining `[2,3]` is transferred. -/
theorem transfer_data_copies_remaining_witness :
    0 < 2 ∧ (⟨[1, 2, 3], 1⟩ : StreamState).pos ≤ ([1, 2, 3] : List Nat).length ∧
    (⟨[9], 0⟩ : StreamState).pos ≤ ([9] : List Nat).length ∧
    (transfer_data ⟨[1, 2, 3], 1⟩ ⟨[9], 0⟩ = transfer_data ⟨[1, 2, 3], 1⟩ ⟨[9], 0⟩ 65536 ∧
    transfer_data ⟨[1, 2, 3], 1⟩ ⟨[9], 0⟩ 2 =
      (⟨[1, 2, 3], ([1, 2, 3] : List Nat).length⟩,
        (⟨[9], 0⟩ : StreamState).write (([1, 2, 3] : List Nat).drop 1)) ∧
    ((transfer_data ⟨[1, 2, 3], 1⟩ ⟨[9], 0⟩ 2).1.readN 2).1 = [] ∧
    (transfer_data ⟨[1, 2, 3], 1⟩ ⟨[9], 0⟩ 2).2.content =
      (([9] : List Nat) ++ List.replicate (0 - ([9] : List Nat).length) 0).take 0 ++
        ([1, 2, 3] : List Nat).drop 1 ++
        (([9] : List Nat) ++ List.replicate (0 - ([9] : List Nat).length) 0).drop
          (0 + (([1, 2, 3] : List Nat).drop 1).length) ∧
    (transfer_data ⟨[1, 2, 3], 1⟩ ⟨[9], 0⟩ 2).2.pos =
      0 + (([1, 2, 3] : List Nat).drop 1).length) :=
  ⟨by decide, by decide, by decide,
    transfer_data_copies_remaining ⟨[1, 2, 3], 1⟩ ⟨[9], 0⟩ 2
      (by decide) (by decide) (by decide)⟩

/-- C10: on a mutable disk-backed source, a writable handle request opens
the existing file in read-write mode without creating or truncating it —
a missing path raises an environment error and creates nothing, and an
existing file's on-disk content immediately after the open equals its
content before. -/
theorem mutable_local_writable_open_no_create_no_truncate
    (ls : LocalSource) (fs : FS) (c : List Nat)
    (hmut : ls.mutable = true) :
    (fs ls.path = none →
      local_text_fileobj ls fs true = (.error .environmentError, fs) ∧
      local_bytes_fileobj ls fs true = (.error .environmentError, fs)) ∧
    (fs ls.path = some c →
      local_text_fileobj ls fs true
          = (.ok ⟨⟨c, 0⟩, ls.encoding, [.environmentError]⟩, fs) ∧
      local_bytes_fileobj ls fs true
          = (.ok ⟨⟨c, 0⟩, none, [.environmentError]⟩, fs)) := by
  constructor <;> intro hf <;>
    simp [local_text_fileobj, local_bytes_fileobj, open_file, hmut, hf]

/-- Witness for C10: one mutable disk source whose path is absent from
the file system (the open fails with an environment error, creating
nothing) and one whose path holds `[7]` (the open succeeds and the file
system is unchanged). -/
theorem mutable_local_writable_open_no_create_no_truncate_witness :
    (LocalSource.mk "missing" true none).mutable = true ∧
    (LocalSource.mk "present" true none).mutable = true ∧
    (local_text_fileobj ⟨"missing", true, none⟩
        (fun p => if p = "present" then some [7] else none) true
        = (.error .environmentError, fun p => if p = "present" then some [7] else none) ∧
    local_bytes_fileobj ⟨"missing", true, none⟩
        (fun p => if p = "present" then some [7] else none) true
        = (.error .environmentError, fun p => if p = "present" then some [7] else none)) ∧
    (local_text_fileobj ⟨"present", true, none⟩
        (fun p => if p = "present" then some [7] else none) true
        = (.ok ⟨⟨[7], 0⟩, none, [.environmentError]⟩,
            fun p => if p = "present" then some [7] else none) ∧
    local_bytes_fileobj ⟨"present", true, none⟩
        (fun p => if p = "present" then some [7] else none) true
        = (.ok ⟨⟨[7], 0⟩, none, [.environmentError]⟩,
            fun p => if p = "present" then some [7] else none)) :=
  ⟨rfl, rfl,
    (mutable_local_writable_open_no_create_no_truncate ⟨"missing", true, none⟩
      (fun p => if p = "present" then some [7] else none) [7] rfl).1 rfl,
    (mutable_local_writable_open_no_create_no_truncate ⟨"present", true, none⟩
      (fun p => if p = "present" then some [7] else none) [7] rfl).2 rfl⟩

/-- C4 counterexample: the round-trip claim fails as stated.  With the
mutable source `"foonani"` and written text `"dar"`, the fresh read-only
handle reads `"darnani"`, not the written text `"dar"` — the writable
handle is pre-loaded with the original content and a short write
preserves the original suffix. -/
theorem roundtrip_exact_readback_fails_for_short_write :
    ds_text_fileobj ⟨.str (strCodes "foonani"), true⟩ true
      = .ok (.wr ⟨.text, ⟨strCodes "foonani", 0⟩, true⟩) ∧
    WrHandle.close
        ((WrHandle.mk .text ⟨strCodes "foonani", 0⟩ true).write (strCodes "dar"))
        ⟨.str (strCodes "foonani"), true⟩
      = some (⟨.text, ⟨strCodes "darnani", 7⟩, false⟩,
          ⟨.str (strCodes "darnani"), true⟩) ∧
    ds_text_fileobj ⟨.str (strCodes "darnani"), true⟩ false
      = .ok (.ro ⟨.text, ⟨strCodes "darnani", 0⟩⟩) ∧
    (RoHandle.mk .text ⟨strCodes "darnani", 0⟩).read.1 ≠ strCodes "dar" :=
  ⟨rfl, rfl, rfl, by decide⟩

/-- C4 (amended): for every mutable in-memory source, writing a text `T`
at least as long as the handle's initial (converted) content to the
fresh writable text handle, closing it (the commit succeeding), then
reading via a freshly obtained read-only text handle yields exactly
`T`. -/
theorem roundtrip_readback_equals_written_text
    (src src2 : DataSource) (T : List Nat) (h hw : WrHandle)
    (hopen : ds_text_fileobj src true = .ok (.wr h))
    (hlen : h.stream.content.length ≤ T.length)
    (hclose : WrHandle.close (h.write T) src = some (hw, src2)) :
    ds_text_fileobj src2 false = .ok (.ro ⟨.text, ⟨T, 0⟩⟩) ∧
    (RoHandle.mk .text ⟨T, 0⟩).read.1 = T := by
  unfold ds_text_fileobj at hopen
  rw [if_pos rfl] at hopen
  cases hm : src.mutable <;> rw [hm] at hopen
  · rw [if_pos (by decide)] at hopen
    cases hopen
  · rw [if_neg (by decide)] at hopen
    cases hcv : _convert_data src .text with
    | none => rw [hcv] at hopen; cases hopen
    | some d =>
      rw [hcv] at hopen
      injection hopen with h1
      injection h1 with h2
      subst h2
      simp only at hlen
      have hwrite : (WrHandle.mk .text ⟨d, 0⟩ true).write T
          = ⟨.text, ⟨T, T.length⟩, true⟩ := by
        simp [WrHandle.write, StreamState.write, List.drop_eq_nil_of_le hlen]
      rw [hwrite] at hclose
      rw [WrHandle.close, if_pos rfl] at hclose
      simp only [StreamState.seek, StreamState.readAll, List.drop_zero,
        mkPayload] at hclose
      cases hres : _reset_data src (.str T) with
      | none => rw [hres] at hclose; cases hclose
      | some srcN =>
        rw [hres] at hclose
        injection hclose with h3
        injection h3 with h4 h5
        subst h5
        refine ⟨?_, by simp [RoHandle.read, StreamState.readAll]⟩
        unfold _reset_data at hres
        cases hd : src.data with
        | str s0 =>
          rw [hd] at hres
          simp only [Option.some.injEq] at hres
          subst hres
          simp [ds_text_fileobj, _convert_data]
        | bytes b0 =>
          rw [hd] at hres
          simp only [Option.map_eq_some'] at hres
          obtain ⟨bT, henc, hsrcN⟩ := hres
          subst hsrcN
          simp [ds_text_fileobj, _convert_data, utf8Decode_utf8Encode henc]

/-- Witness for the amended C4: source `"foo"`, written text `"food"`
(length 4 ≥ 3); the commit stores `"food"` and the fresh read-only
handle reads it back exactly. -/
theorem roundtrip_readback_equals_written_text_witness :
    ds_text_fileobj ⟨.str (strCodes "foo"), true⟩ true
      = .ok (.wr ⟨.text, ⟨strCodes "foo", 0⟩, true⟩) ∧
    (WrHandle.mk .text ⟨strCodes "foo", 0⟩ true).stream.content.length
      ≤ (strCodes "food").length ∧
    WrHandle.close ((WrHandle.mk .text ⟨strCodes "foo", 0⟩ true).write (strCodes "food"))
        ⟨.str (strCodes "foo"), true⟩
      = some (⟨.text, ⟨strCodes "food", 4⟩, false⟩, ⟨.str (strCodes "food"), true⟩) ∧
    (ds_text_fileobj ⟨.str (strCodes "food"), true⟩ false
        = .ok (.ro ⟨.text, ⟨strCodes "food", 0⟩⟩) ∧
    (RoHandle.mk .text ⟨strCodes "food", 0⟩).read.1 = strCodes "food") :=
  ⟨rfl, by decide, rfl,
    roundtrip_readback_equals_written_text ⟨.str (strCodes "foo"), true⟩
      ⟨.str (strCodes "food"), true⟩ (strCodes "food")
      ⟨.text, ⟨strCodes "foo", 0⟩, true⟩ ⟨.text, ⟨strCodes "food", 4⟩, false⟩
      rfl (by decide) rfl⟩

theorem ds_text_fileobj_ok_exceptions (src : DataSource) (b : Bool)
    (m : MemFileObj) (h : ds_text_fileobj src b = .ok m) :
    m.exceptions =
      (if b then [PyExcType.memoryError] else [.memoryError, .typeError]) := by
  cases b
  · unfold ds_text_fileobj at h
    rw [if_neg (by decide)] at h
    cases hcv : _convert_data src .text <;> rw [hcv] at h
    · cases h
    · cases h
      rfl
  · unfold ds_text_fileobj at h
    rw [if_pos rfl] at h
    cases hm : src.mutable <;> rw [hm] at h
    · rw [if_pos (by decide)] at h
      cases h
    · rw [if_neg (by decide)] at h
      cases hcv : _convert_data src .text <;> rw [hcv] at h
      · cases h
      · cases h
        rfl

theorem ds_bytes_fileobj_ok_exceptions (src : DataSource) (b : Bool)
    (m : MemFileObj) (h : ds_bytes_fileobj src b = .ok m) :
    m.exceptions =
      (if b then [PyExcType.memoryError] else [.memoryError, .typeError]) := by
  cases b
  · unfold ds_bytes_fileobj at h
    rw [if_neg (by decide)] at h
    cases hcv : _convert_data src .bytes <;> rw [hcv] at h
    · cases h
    · cases h
      rfl
  · unfold ds_bytes_fileobj at h
    rw [if_pos rfl] at h
    cases hm : src.mutable <;> rw [hm] at h
    · rw [if_pos (by decide)] at h
      cases h
    · rw [if_neg (by decide)] at h
      cases hcv : _convert_data src .bytes <;> rw [hcv] at h
      · cases h
      · cases h
        rfl

theorem open_file_ok_exceptions (fs : FS) (p : String) (om : OpenMode)
    (enc : Option String) (dh : DiskHandle) (fs2 : FS)
    (h : open_file fs p om enc = (.ok dh, fs2)) :
    dh.exceptions = [.environmentError] := by
  unfold open_file at h
  cases om <;>
    first
    | (cases hf : fs p <;> rw [hf] at h
       · injection h with h1 h2
         exact Except.noConfusion h1
       · injection h with h1 h2
         injection h1 with h3
         subst h3
         rfl)
    | (injection h with h1 h2
       injection h1 with h3
       subst h3
       rfl)

/-- C9: every handle carries the declared exception set of its type
alone — writable in-memory handles `(MemoryError,)`, read-only in-memory
handles `(MemoryError, TypeError)`, disk handles `(EnvironmentError,)` —
and a write on a read-only in-memory handle raises TypeError, a member
of that handle's declared set. -/
theorem handle_exceptions_declared_by_type
    (src : DataSource) (b : Bool) (m1 m2 : MemFileObj) (rh : RoHandle)
    (wh : WrHandle) (fs fs2 : FS) (p : String) (om : OpenMode)
    (enc : Option String) (dh : DiskHandle) (d : List Nat)
    (htext : ds_text_fileobj src b = .ok m1)
    (hbytes : ds_bytes_fileobj src b = .ok m2)
    (hdisk : open_file fs p om enc = (.ok dh, fs2)) :
    m1.exceptions =
      (if b then [PyExcType.memoryError] else [.memoryError, .typeError]) ∧
    m2.exceptions =
      (if b then [PyExcType.memoryError] else [.memoryError, .typeError]) ∧
    (MemFileObj.wr wh).exceptions = [.memoryError] ∧
    (MemFileObj.ro rh).exceptions = [.memoryError, .typeError] ∧
    dh.exceptions = [.environmentError] ∧
    RoHandle.write rh d = .error .typeError ∧
    PyExcType.typeError ∈ (MemFileObj.ro rh).exceptions :=
  ⟨ds_text_fileobj_ok_exceptions src b m1 htext,
   ds_bytes_fileobj_ok_exceptions src b m2 hbytes,
   rfl, rfl,
   open_file_ok_exceptions fs p om enc dh fs2 hdisk,
   rfl,
   by simp [MemFileObj.exceptions, RoHandle.exceptions]⟩

/-- Witness for C9: a mutable empty text source opened writable (both
modes), a disk open of an existing path in `"rb+"` mode, and a concrete
read-only handle whose write raises TypeError. -/
theorem handle_exceptions_declared_by_type_witness :
    ds_text_fileobj ⟨.str [], true⟩ true
      = .ok (.wr ⟨.text, ⟨[], 0⟩, true⟩) ∧
    ds_bytes_fileobj ⟨.str [], true⟩ true
      = .ok (.wr ⟨.bytes, ⟨[], 0⟩, true⟩) ∧
    open_file (fun _ => some [7]) "present" .rbPlus none
      = (.ok ⟨⟨[7], 0⟩, none, [.environmentError]⟩, fun _ => some [7]) ∧
    ((MemFileObj.wr ⟨.text, ⟨[], 0⟩, true⟩).exceptions =
      (if true then [PyExcType.memoryError] else [.memoryError, .typeError]) ∧
    (MemFileObj.wr ⟨.bytes, ⟨[], 0⟩, true⟩).exceptions =
      (if true then [PyExcType.memoryError] else [.memoryError, .typeError]) ∧
    (MemFileObj.wr ⟨.text, ⟨[], 0⟩, false⟩).exceptions = [.memoryError] ∧
    (MemFileObj.ro ⟨.text, ⟨[7], 0⟩⟩).exceptions = [.memoryError, .typeError] ∧
    (DiskHandle.mk ⟨[7], 0⟩ none [.environmentError]).exceptions
      = [.environmentError] ∧
    RoHandle.write ⟨.text, ⟨[7], 0⟩⟩ [8] = .error .typeError ∧
    PyExcType.typeError ∈ (MemFileObj.ro ⟨.text, ⟨[7], 0⟩⟩).exceptions) :=
  ⟨rfl, rfl, rfl,
    handle_exceptions_declared_by_type ⟨.str [], true⟩ true
      (.wr ⟨.text, ⟨[], 0⟩, true⟩) (.wr ⟨.bytes, ⟨[], 0⟩, true⟩)
      ⟨.text, ⟨[7], 0⟩⟩ ⟨.text, ⟨[], 0⟩, false⟩
      (fun _ => some [7]) (fun _ => some [7]) "present" .rbPlus none
      ⟨⟨[7], 0⟩, none, [.environmentError]⟩ [8] rfl rfl rfl⟩
